import Mathlib

/-!
# Verification of the realworld RAG pipeline

Shallow embedding of the core of the `small_demo/RAG/realworld` retrieval
engine: the text chunker (`document_processor.TextSplitter.split_text`), the
deduplicating vector store (`vector_store.VectorStore.add_documents` and its
sibling operations), the retrying embedding client
(`rag_engine.OllamaClient.generate_embedding`), and the query orchestration
(`rag_engine.RAGEngine.search_documents` / `RAGEngine.query`).

Python text is modelled as `List Char`; Python `int` as `Nat`/`Int`; floats
appearing in similarity arithmetic as `Rat`; exceptions as `Except`/sum-like
outcome types.  External collaborators (the ChromaDB collection, the Ollama
HTTP service, the `retry` decorator) are modelled at the interface the code
uses, following the behaviour documented for them.
-/

namespace RagSpec

/-! ## Python string primitives -/

/-- Python's default `str.strip` whitespace predicate (ASCII whitespace). -/
def pyIsSpace (c : Char) : Bool :=
  c = ' ' || c = '\t' || c = '\n' || c = '\r' || c = '\x0b' || c = '\x0c'

/-- Python `s.strip()`: drop whitespace from both ends. -/
def pyStrip (s : List Char) : List Char :=
  ((s.dropWhile pyIsSpace).reverse.dropWhile pyIsSpace).reverse

/-- Python slice `s[start:stop]` (with the usual clamping to the string length). -/
def pySlice (s : List Char) (start stop : Nat) : List Char :=
  (s.drop start).take (stop - start)

/-- Does `pat` occur in `text` starting at index `i`? -/
def matchesAt (text pat : List Char) (i : Nat) : Bool :=
  (text.drop i).take pat.length == pat

/-- Python `text.rfind(pat, start, stop)`: the largest index `i ≥ start` such
that `pat` occurs at `i` and fits inside `text[start:stop]`, or `-1`. -/
def pyRfind (text pat : List Char) (start stop : Nat) : Int :=
  let stop' := min stop text.length
  (List.range (stop' + 1)).foldl
    (fun acc i =>
      if start ≤ i && i + pat.length ≤ stop' && matchesAt text pat i then (i : Int) else acc)
    (-1)

/-! ## TextSplitter (document_processor.py, lines 167-224) -/

/-- `TextSplitter(chunk_size, chunk_overlap)`. -/
structure TextSplitter where
  chunk_size : Nat
  chunk_overlap : Nat

/-- The ordered delimiter set `['. ', '! ', '? ', '\n\n']` from `split_text`. -/
def sentence_endings : List (List Char) := [['.', ' '], ['!', ' '], ['?', ' '], ['\n', '\n']]

/-- One iteration of the `for ending in sentence_endings` loop in `split_text`:
`last_ending = text.rfind(ending, start, end)`; if `last_ending > start` and
`abs(last_ending - end) < abs(best_end - end)` then
`best_end = last_ending + len(ending)`. -/
def bestEndStep (text : List Char) (start endW : Nat) (best : Nat) (ending : List Char) : Nat :=
  let last_ending := pyRfind text ending start endW
  if (start : Int) < last_ending &&
      (last_ending - (endW : Int)).natAbs < ((best : Int) - (endW : Int)).natAbs then
    (last_ending + ending.length).toNat
  else
    best

/-- The sentence-boundary search of `split_text`: fold `bestEndStep` over the
four delimiters starting from `best_end = end`. -/
def computeBestEnd (text : List Char) (start endW : Nat) : Nat :=
  sentence_endings.foldl (bestEndStep text start endW) endW

/-- The `while start < len(text)` loop of `split_text`, with explicit fuel
(the loop advances `start` by at least one per iteration, so `text.length`
iterations always suffice; see `split_text`). -/
def splitTextFrom (ts : TextSplitter) (text : List Char) : Nat → Nat → List (List Char)
  | 0, _ => []
  | fuel + 1, start =>
    if start < text.length then
      let endHard := start + ts.chunk_size
      let endW := if endHard < text.length then computeBestEnd text start endHard else endHard
      let chunk := pyStrip (pySlice text start endW)
      let rest := splitTextFrom ts text fuel (max (start + 1) (endW - ts.chunk_overlap))
      if chunk = [] then rest else chunk :: rest
    else []

/-- `TextSplitter.split_text`: `if not text: return []`, then the chunking loop. -/
def split_text (ts : TextSplitter) (text : List Char) : List (List Char) :=
  if text = [] then [] else splitTextFrom ts text text.length 0

/-- Same loop as `splitTextFrom` but yielding the raw (untrimmed, unfiltered)
window slices `text[start:end]`; used to state how trimming alters the
reconstruction property. -/
def splitRawFrom (ts : TextSplitter) (text : List Char) : Nat → Nat → List (List Char)
  | 0, _ => []
  | fuel + 1, start =>
    if start < text.length then
      let endHard := start + ts.chunk_size
      let endW := if endHard < text.length then computeBestEnd text start endHard else endHard
      pySlice text start endW :: splitRawFrom ts text fuel (max (start + 1) (endW - ts.chunk_overlap))
    else []

/-- The raw window slices visited by `split_text`. -/
def split_raw (ts : TextSplitter) (text : List Char) : List (List Char) :=
  splitRawFrom ts text text.length 0

/-! ### Basic chunker lemmas -/

theorem bestEndStep_self (text : List Char) (start endW : Nat) (ending : List Char) :
    bestEndStep text start endW endW ending = endW := by
  simp [bestEndStep]

theorem computeBestEnd_eq (text : List Char) (start endW : Nat) :
    computeBestEnd text start endW = endW := by
  simp [computeBestEnd, sentence_endings, bestEndStep_self]

theorem splitTextFrom_stop (ts : TextSplitter) (text : List Char) (fuel start : Nat)
    (h : text.length ≤ start) : splitTextFrom ts text fuel start = [] := by
  cases fuel with
  | zero => rfl
  | succ n => simp [splitTextFrom, Nat.not_lt.mpr h]

theorem splitRawFrom_stop (ts : TextSplitter) (text : List Char) (fuel start : Nat)
    (h : text.length ≤ start) : splitRawFrom ts text fuel start = [] := by
  cases fuel with
  | zero => rfl
  | succ n => simp [splitRawFrom, Nat.not_lt.mpr h]

/-- The trimmed-and-filtered chunks are exactly the raw window slices with
whitespace stripped and empty results dropped. -/
theorem splitTextFrom_eq_raw (ts : TextSplitter) (text : List Char) (fuel : Nat) :
    ∀ start, splitTextFrom ts text fuel start =
      ((splitRawFrom ts text fuel start).map pyStrip).filter (fun c => decide (c ≠ [])) := by
  induction fuel with
  | zero => intro start; rfl
  | succ fuel ih =>
    intro start
    by_cases h : start < text.length
    · simp only [splitTextFrom, splitRawFrom, if_pos h, List.map_cons, List.filter_cons, ih]
      by_cases hc :
          pyStrip (pySlice text start
            (if start + ts.chunk_size < text.length then
              computeBestEnd text start (start + ts.chunk_size)
            else start + ts.chunk_size)) = []
      · simp [hc]
      · simp [hc]
    · simp [splitTextFrom, splitRawFrom, h]

/-- With `chunk_overlap = 0` the raw windows partition the text: their
concatenation reconstructs the input exactly. -/
theorem splitRawFrom_join (ts : TextSplitter) (text : List Char)
    (hc : 1 ≤ ts.chunk_size) (ho : ts.chunk_overlap = 0) (fuel : Nat) :
    ∀ start, text.length ≤ start + fuel →
      (splitRawFrom ts text fuel start).flatten = text.drop start := by
  induction fuel with
  | zero =>
    intro start h
    have : text.drop start = [] := List.drop_eq_nil_of_le (by omega)
    simp [splitRawFrom, this]
  | succ fuel ih =>
    intro start h
    by_cases hlt : start < text.length
    · have hend :
          (if start + ts.chunk_size < text.length then
            computeBestEnd text start (start + ts.chunk_size)
          else start + ts.chunk_size) = start + ts.chunk_size := by
        rw [computeBestEnd_eq]; exact ite_self _
      have hmax : max (start + 1) (start + ts.chunk_size - ts.chunk_overlap)
          = start + ts.chunk_size := by
        rw [ho]; omega
      have hslice : pySlice text start (start + ts.chunk_size)
          = (text.drop start).take ts.chunk_size := by
        simp [pySlice]
      have hdrop : text.drop (start + ts.chunk_size) = (text.drop start).drop ts.chunk_size := by
        rw [List.drop_drop, Nat.add_comm]
      simp only [splitRawFrom, if_pos hlt, hend, hmax, List.flatten_cons]
      rw [ih (start + ts.chunk_size) (by omega), hslice, hdrop, List.take_append_drop]
    · rw [splitRawFrom_stop ts text _ _ (by omega)]
      simp [List.drop_eq_nil_of_le (by omega : text.length ≤ start)]

/-! ### Whitespace lemmas for the empty-chunk cases -/

theorem pyStrip_eq_nil_of_all (s : List Char) (h : ∀ c ∈ s, pyIsSpace c) : pyStrip s = [] := by
  have h1 : s.dropWhile pyIsSpace = [] := List.dropWhile_eq_nil_iff.mpr h
  simp [pyStrip, h1]

theorem all_of_pyStrip_eq_nil (s : List Char) (h : pyStrip s = []) : ∀ c ∈ s, pyIsSpace c := by
  have h1 : (s.dropWhile pyIsSpace).reverse.dropWhile pyIsSpace = [] := by
    have := congrArg List.reverse h
    simpa [pyStrip] using this
  have h2 : ∀ c ∈ (s.dropWhile pyIsSpace).reverse, pyIsSpace c :=
    List.dropWhile_eq_nil_iff.mp h1
  have h3 : ∀ c ∈ s.dropWhile pyIsSpace, pyIsSpace c := by
    intro c hcm
    exact h2 c (List.mem_reverse.mpr hcm)
  intro c hcm
  rcases List.mem_append.mp
      (by rw [List.takeWhile_append_dropWhile]; exact hcm :
        c ∈ s.takeWhile pyIsSpace ++ s.dropWhile pyIsSpace) with hl | hr
  · exact List.mem_takeWhile_imp hl
  · exact h3 c hr

theorem splitTextFrom_all_space (ts : TextSplitter) (text : List Char)
    (hsp : ∀ c ∈ text, pyIsSpace c) (fuel : Nat) :
    ∀ start, splitTextFrom ts text fuel start = [] := by
  induction fuel with
  | zero => intro start; rfl
  | succ fuel ih =>
    intro start
    by_cases h : start < text.length
    · have hchunk : ∀ stop, pyStrip (pySlice text start stop) = [] := by
        intro stop
        refine pyStrip_eq_nil_of_all _ ?_
        intro c hcm
        exact hsp c (List.drop_subset _ _ (List.take_subset _ _ hcm))
      simp [splitTextFrom, if_pos h, hchunk, ih]
    · simp [splitTextFrom, h]

/-! ### Claims about the chunker -/

/-- Claim C3.  The claim says `split_text` snaps the chunk boundary to just
after the sentence delimiter nearest the window end whenever one occurs inside
the window.  The code never does: `best_end` is initialised to `end`, so the
update guard `abs(last_ending - end) < abs(best_end - end)` compares against
`0` and is never satisfiable — the boundary search is dead code and the hard
cut is always kept.  First conjunct: the search always returns the hard cut.
Remaining conjuncts: a concrete failing input in which the delimiter `'. '`
occurs inside the window `[0, 6]` (at index 2) yet the first chunk is the hard
cut `"ab. cd"`, not `"ab."`. -/
theorem C3_hard_cut_kept :
    (∀ (text : List Char) (start endW : Nat), computeBestEnd text start endW = endW) ∧
    pyRfind "ab. cdefgh".toList ['.', ' '] 0 6 = 2 ∧
    split_text ⟨6, 0⟩ "ab. cdefgh".toList = ["ab. cd".toList, "efgh".toList] :=
  ⟨computeBestEnd_eq, by decide, by decide⟩

/-- Claim C4, counterexample.  With `chunk_overlap = 0` consecutive chunks
have no overlapping portion at all, so the claimed reconstruction is the plain
concatenation of the returned chunks; on `"abc def"` with `chunk_size = 4` the
chunks are `["abc", "def"]` (the boundary space is stripped from each chunk),
whose concatenation `"abcdef"` differs from `t.strip() = "abc def"`. -/
theorem C4_counterexample :
    split_text ⟨4, 0⟩ "abc def".toList = ["abc".toList, "def".toList] ∧
    (split_text ⟨4, 0⟩ "abc def".toList).flatten ≠ pyStrip "abc def".toList := by
  decide

/-- Claim C4, amended.  Concatenating the non-overlapping portions of the
consecutive untrimmed window slices visited by `split_text` (with
`chunk_overlap = 0` each window is wholly non-overlapping) reconstructs the
input text `t` exactly; the chunks actually returned are those windows with
whitespace stripped and empty results dropped, so reconstruction of
`t.strip()` from the returned chunks fails when whitespace abuts a window
boundary. -/
theorem C4_amended_theorem (ts : TextSplitter) (text : List Char)
    (hc : 1 ≤ ts.chunk_size) (ho : ts.chunk_overlap = 0) :
    (split_raw ts text).flatten = text ∧
    split_text ts text = ((split_raw ts text).map pyStrip).filter (fun c => decide (c ≠ [])) := by
  constructor
  · simpa using splitRawFrom_join ts text hc ho text.length 0 (by omega)
  · by_cases h : text = []
    · subst h; rfl
    · simp only [split_text, if_neg h, split_raw]
      exact splitTextFrom_eq_raw ts text text.length 0

/-- Witness for `C4_amended_theorem` at `chunk_size = 4`, `chunk_overlap = 0`,
text `"abc def"`. -/
theorem C4_witness :
    (split_raw ⟨4, 0⟩ "abc def".toList).flatten = "abc def".toList ∧
    split_text ⟨4, 0⟩ "abc def".toList =
      ((split_raw ⟨4, 0⟩ "abc def".toList).map pyStrip).filter (fun c => decide (c ≠ [])) :=
  C4_amended_theorem ⟨4, 0⟩ "abc def".toList (by decide) rfl

/-- Claim C5, counterexample.  `"abcd"` has length `4 = chunk_size`, yet with
`chunk_overlap = 3` the loop advance `start = max(start+1, end-overlap)` lands
back inside the text and `split_text` returns four chunks, not
`[t.strip()]`; and the empty text yields `[]`, not `[""]`. -/
theorem C5_counterexample :
    ("abcd".toList.length ≤ 4 ∧
      split_text ⟨4, 3⟩ "abcd".toList
        = ["abcd".toList, "bcd".toList, "cd".toList, "d".toList] ∧
      split_text ⟨4, 3⟩ "abcd".toList ≠ [pyStrip "abcd".toList]) ∧
    split_text ⟨4, 3⟩ ([] : List Char) ≠ [pyStrip ([] : List Char)] := by
  decide

/-- Claim C5, amended.  For a text whose stripped form is nonempty and whose
length is at most `max (chunk_size - chunk_overlap) 1`, `split_text` returns
exactly `[t.strip()]`; a text that is empty or all whitespace yields `[]`.
(Texts with `chunk_size - chunk_overlap < |t| ≤ chunk_size` can yield extra
trailing chunks, as the counterexample shows.) -/
theorem C5_amended_theorem (ts : TextSplitter) (text : List Char) (hc : 1 ≤ ts.chunk_size) :
    (pyStrip text = [] → split_text ts text = []) ∧
    (pyStrip text ≠ [] → text.length ≤ max (ts.chunk_size - ts.chunk_overlap) 1 →
      split_text ts text = [pyStrip text]) := by
  constructor
  · intro hspace
    by_cases h : text = []
    · simp [split_text, h]
    · simp only [split_text, if_neg h]
      exact splitTextFrom_all_space ts text (all_of_pyStrip_eq_nil text hspace) text.length 0
  · intro hne hlen
    have htne : text ≠ [] := by
      intro h
      exact hne (by simp [h, pyStrip])
    have hlenpos : 1 ≤ text.length := List.length_pos.mpr htne
    have hdisj := le_max_iff.mp hlen
    have hcle : text.length ≤ ts.chunk_size := by
      rcases hdisj with h1 | h1 <;> omega
    have hstop : text.length ≤ max (0 + 1) (0 + ts.chunk_size - ts.chunk_overlap) := by
      rcases hdisj with h1 | h1
      · exact le_max_iff.mpr (Or.inr (by omega))
      · exact le_max_iff.mpr (Or.inl (by omega))
    obtain ⟨m, hm⟩ : ∃ m, text.length = m + 1 := ⟨text.length - 1, by omega⟩
    have htake : pySlice text 0 (0 + ts.chunk_size) = text := by
      simp only [pySlice, List.drop_zero, Nat.sub_zero]
      exact List.take_of_length_le (by omega)
    rw [split_text, if_neg htne, hm]
    simp only [splitTextFrom]
    rw [if_pos (by omega : 0 < text.length),
      if_neg (by omega : ¬ 0 + ts.chunk_size < text.length), htake, if_neg hne,
      splitTextFrom_stop ts text m _ hstop]

/-- Witness for `C5_amended_theorem` at `chunk_size = 5`, `chunk_overlap = 2`,
text `"xy"` (length 2 ≤ 5 - 2). -/
theorem C5_witness :
    split_text ⟨5, 2⟩ "xy".toList = [pyStrip "xy".toList] :=
  (C5_amended_theorem ⟨5, 2⟩ "xy".toList (by decide)).2 (by decide) (by decide)

/-! ## Vector store (src/realworld/vector_store.py)

The `Document` objects handed to the store carry `content`, a metadata
mapping and a source; the fields of the metadata mapping the store and the
engine actually read are `source` (used by `_generate_id`, defaulting to the
empty string) and `embedding` (attached by `RAGEngine.add_documents` after a
cache hit or a successful embedding call).  Embedding vectors are modelled
over `Rat`.  The MD5 digest used by `_generate_id` is an external hash
function; it is kept abstract as a parameter `hash`, so every theorem holds
for the real digest. -/

/-- A document/chunk as passed to `VectorStore.add_documents`. -/
structure Document where
  content : String
  meta_source : String
  meta_embedding : Option (List Rat)
deriving DecidableEq

/-- `VectorStore._generate_id`: `f"{source}_{md5(source + content)}"` with
`source = metadata.get('source', '')`. -/
def generate_id (hash : String → String) (doc : Document) : String :=
  doc.meta_source ++ "_" ++ hash (doc.meta_source ++ doc.content)

/-- A record held by the ChromaDB collection (spec §6 vector-store boundary:
`{id, content, metadata, vector}`).  `embedding` is the vector supplied by the
caller through the `embeddings` argument of the collection's add/upsert call;
it is `none` when the caller passes no embeddings. -/
structure ChromaRecord where
  id : String
  document : String
  meta_source : String
  meta_embedding : Option (List Rat)
  embedding : Option (List Rat)
deriving DecidableEq

/-- The live record set of the collection. -/
abbrev Collection := List ChromaRecord

/-- `collection.get(ids=[i])['ids'] != []`: does a live record with this id exist? -/
def hasId (c : Collection) (i : String) : Bool :=
  c.any (fun r => decide (r.id = i))

/-- Upsert of one record (spec §6: the store supports upsert): replace the
record with the same id if one exists, otherwise append. -/
def upsertOne (c : Collection) (r : ChromaRecord) : Collection :=
  if hasId c r.id then c.map (fun x => if x.id = r.id then r else x) else c ++ [r]

/-- `collection.add(ids, documents, metadatas)` for a batch of records. -/
def chromaAdd (c : Collection) (rs : List ChromaRecord) : Collection :=
  rs.foldl upsertOne c

/-- The record built for a document in `add_documents`.  The Python call
`collection.add(ids=ids, documents=texts, metadatas=metadatas)` passes no
`embeddings` argument (the local `embeddings` list is created empty and never
used), so the stored vector is `none`. -/
def toRecord (hash : String → String) (d : Document) : ChromaRecord :=
  { id := generate_id hash d
    document := d.content
    meta_source := d.meta_source
    meta_embedding := d.meta_embedding
    embedding := none }

/-- The inner `for doc in batch` loop of `add_documents`: skip every document
whose id already exists in the collection (checked against the state at batch
start — the collection is only written after the loop), keep the rest in
order. -/
def buildBatch (hash : String → String) (c : Collection) (batch : List Document) :
    List ChromaRecord :=
  (batch.filter (fun d => ! hasId c (generate_id hash d))).map (toRecord hash)

/-- One batch iteration of `add_documents`: `if ids: collection.add(...);
total_added += len(ids)`. -/
def addStep (hash : String → String) (acc : Collection × Nat) (batch : List Document) :
    Collection × Nat :=
  let rs := buildBatch hash acc.1 batch
  if rs.isEmpty then acc else (chromaAdd acc.1 rs, acc.2 + rs.length)

/-- `for i in range(0, len(documents), batch_size)`: split into consecutive
batches of `batch_size` (fuel-based; `documents.length` steps suffice for any
positive batch size). -/
def toBatchesGo (bs : Nat) : Nat → List Document → List (List Document)
  | _, [] => []
  | 0, _ :: _ => []
  | fuel + 1, x :: xs => (x :: xs).take bs :: toBatchesGo bs fuel ((x :: xs).drop bs)

def toBatches (bs : Nat) (l : List Document) : List (List Document) :=
  toBatchesGo bs l.length l

/-- `VectorStore.add_documents(documents, batch_size)`: returns the updated
collection and `total_added`, the number of records actually written. -/
def add_documents (hash : String → String) (c : Collection) (docs : List Document)
    (batch_size : Nat) : Collection × Nat :=
  (toBatches batch_size docs).foldl (addStep hash) (c, 0)

/-- `VectorStore.delete_documents(ids)`: drop the records with the given ids. -/
def delete_documents (c : Collection) (ids : List String) : Collection :=
  c.filter (fun r => ! decide (r.id ∈ ids))

/-- `VectorStore.update_document(doc_id, document)`: `collection.update` on an
existing id replaces content and metadata (no embeddings argument is passed,
so the caller-supplied vector is untouched); a nonexistent id updates
nothing. -/
def update_document (c : Collection) (doc_id : String) (d : Document) : Collection :=
  c.map (fun r =>
    if r.id = doc_id then
      { r with document := d.content, meta_source := d.meta_source,
               meta_embedding := d.meta_embedding }
    else r)

/-- `VectorStore.clear_collection`: delete and recreate the collection. -/
def clear_collection : Collection := []

/-- The ids of the live records. -/
def collectionIds (c : Collection) : List String :=
  c.map (fun r => r.id)

/-! ### Store lemmas -/

theorem hasId_iff_mem (c : Collection) (i : String) :
    hasId c i = true ↔ i ∈ collectionIds c := by
  simp only [hasId, List.any_eq_true, decide_eq_true_eq, collectionIds, List.mem_map]

theorem collectionIds_replace (c : Collection) (r : ChromaRecord) :
    collectionIds (c.map (fun x => if x.id = r.id then r else x)) = collectionIds c := by
  simp only [collectionIds, List.map_map]
  refine List.map_congr_left ?_
  intro x _
  by_cases h : x.id = r.id
  · simp [h]
  · simp [h]

theorem collectionIds_upsertOne (c : Collection) (r : ChromaRecord) :
    collectionIds (upsertOne c r)
      = if hasId c r.id then collectionIds c else collectionIds c ++ [r.id] := by
  unfold upsertOne
  by_cases h : hasId c r.id
  · simp [h, collectionIds_replace]
  · simp [h, collectionIds]

theorem hasId_upsertOne_of (c : Collection) (r : ChromaRecord) (i : String)
    (h : hasId c i = true) : hasId (upsertOne c r) i = true := by
  rw [hasId_iff_mem] at h ⊢
  rw [collectionIds_upsertOne]
  by_cases hr : hasId c r.id <;> simp [hr, h]

theorem hasId_upsertOne_self (c : Collection) (r : ChromaRecord) :
    hasId (upsertOne c r) r.id = true := by
  rw [hasId_iff_mem, collectionIds_upsertOne]
  by_cases hr : hasId c r.id
  · simpa [hr] using (hasId_iff_mem c r.id).mp hr
  · simp [hr]

theorem hasId_chromaAdd_of (rs : List ChromaRecord) :
    ∀ c i, hasId c i = true → hasId (chromaAdd c rs) i = true := by
  induction rs with
  | nil => intro c i h; exact h
  | cons r rs ih => intro c i h; exact ih _ _ (hasId_upsertOne_of c r i h)

theorem hasId_chromaAdd_mem (rs : List ChromaRecord) :
    ∀ c, ∀ r ∈ rs, hasId (chromaAdd c rs) r.id = true := by
  induction rs with
  | nil => intro c r h; cases h
  | cons a rs ih =>
    intro c r h
    rcases List.mem_cons.mp h with rfl | h
    · exact hasId_chromaAdd_of rs _ _ (hasId_upsertOne_self c r)
    · exact ih _ r h

theorem hasId_addStep_of (hash : String → String) (acc : Collection × Nat)
    (b : List Document) (i : String) (h : hasId acc.1 i = true) :
    hasId (addStep hash acc b).1 i = true := by
  simp only [addStep]
  by_cases hrs : (buildBatch hash acc.1 b).isEmpty
  · simpa [hrs]
  · simp only [if_neg hrs]
    exact hasId_chromaAdd_of _ _ _ h

theorem hasId_addFold_of (hash : String → String) (bl : List (List Document)) :
    ∀ acc i, hasId acc.1 i = true → hasId ((bl.foldl (addStep hash) acc).1) i = true := by
  induction bl with
  | nil => intro acc i h; exact h
  | cons b bl ih =>
    intro acc i h
    exact ih _ _ (hasId_addStep_of hash acc b i h)

/-- After processing a batch list, every document occurring in some batch has
its id in the store: either it was already present, or its record was part of
the batch's add call. -/
theorem hasId_addFold_covers (hash : String → String) (bl : List (List Document)) :
    ∀ acc d, d ∈ bl.flatten →
      hasId ((bl.foldl (addStep hash) acc).1) (generate_id hash d) = true := by
  induction bl with
  | nil => intro acc d h; simp at h
  | cons b bl ih =>
    intro acc d h
    rw [List.flatten_cons] at h
    rcases List.mem_append.mp h with hb | hrest
    · rw [List.foldl_cons]
      apply hasId_addFold_of
      by_cases hin : hasId acc.1 (generate_id hash d)
      · exact hasId_addStep_of hash acc b _ hin
      · have hmem : toRecord hash d ∈ buildBatch hash acc.1 b := by
          unfold buildBatch
          exact List.mem_map_of_mem _ (List.mem_filter.mpr ⟨hb, by simp [hin]⟩)
        have hne : ¬ (buildBatch hash acc.1 b).isEmpty := by
          simp only [List.isEmpty_iff]
          exact List.ne_nil_of_mem hmem
        simp only [addStep, if_neg hne]
        exact hasId_chromaAdd_mem _ _ _ hmem
    · exact ih _ d hrest

/-- If every document of every batch already has its id in the store, the
whole fold is a no-op: every batch filter empties out, no add call is made
and the written count stays put. -/
theorem addFold_stable (hash : String → String) (bl : List (List Document)) :
    ∀ c n, (∀ b ∈ bl, ∀ d ∈ b, hasId c (generate_id hash d) = true) →
      bl.foldl (addStep hash) (c, n) = (c, n) := by
  induction bl with
  | nil => intro c n _; rfl
  | cons b bl ih =>
    intro c n h
    have hb : buildBatch hash c b = [] := by
      unfold buildBatch
      rw [List.filter_eq_nil_iff.mpr]
      · rfl
      · intro d hd
        simp [h b (List.mem_cons_self b bl) d hd]
    have hstep : addStep hash (c, n) b = (c, n) := by
      simp [addStep, hb]
    rw [List.foldl_cons, hstep]
    exact ih c n (fun b' hb' => h b' (List.mem_cons_of_mem _ hb'))

theorem toBatchesGo_flatten (bs : Nat) (hbs : 1 ≤ bs) (fuel : Nat) :
    ∀ l : List Document, l.length ≤ fuel → (toBatchesGo bs fuel l).flatten = l := by
  induction fuel with
  | zero =>
    intro l h
    cases l with
    | nil => rfl
    | cons x xs => simp at h
  | succ fuel ih =>
    intro l h
    cases l with
    | nil => rfl
    | cons x xs =>
      simp only [toBatchesGo, List.flatten_cons]
      rw [ih ((x :: xs).drop bs) (by simp at h ⊢; omega)]
      exact List.take_append_drop bs (x :: xs)

theorem toBatches_flatten (bs : Nat) (hbs : 1 ≤ bs) (l : List Document) :
    (toBatches bs l).flatten = l :=
  toBatchesGo_flatten bs hbs l.length l le_rfl

/-! ### Id-uniqueness lemmas -/

theorem nodup_upsertOne (c : Collection) (r : ChromaRecord)
    (h : (collectionIds c).Nodup) : (collectionIds (upsertOne c r)).Nodup := by
  rw [collectionIds_upsertOne]
  by_cases hr : hasId c r.id
  · simpa [hr]
  · simp only [if_neg hr]
    refine List.Nodup.append h (List.nodup_singleton _) ?_
    intro a ha hb
    rw [List.mem_singleton] at hb
    exact hr ((hasId_iff_mem c r.id).mpr (hb ▸ ha))

theorem nodup_chromaAdd (rs : List ChromaRecord) :
    ∀ c, (collectionIds c).Nodup → (collectionIds (chromaAdd c rs)).Nodup := by
  induction rs with
  | nil => intro c h; exact h
  | cons r rs ih => intro c h; exact ih _ (nodup_upsertOne c r h)

theorem nodup_addFold (hash : String → String) (bl : List (List Document)) :
    ∀ acc : Collection × Nat, (collectionIds acc.1).Nodup →
      (collectionIds ((bl.foldl (addStep hash) acc).1)).Nodup := by
  induction bl with
  | nil => intro acc h; exact h
  | cons b bl ih =>
    intro acc h
    rw [List.foldl_cons]
    apply ih
    simp only [addStep]
    by_cases hrs : (buildBatch hash acc.1 b).isEmpty
    · simpa [hrs]
    · simp only [if_neg hrs]
      exact nodup_chromaAdd _ _ h

theorem collectionIds_update (c : Collection) (doc_id : String) (d : Document) :
    collectionIds (update_document c doc_id d) = collectionIds c := by
  simp only [update_document, collectionIds, List.map_map]
  refine List.map_congr_left ?_
  intro r _
  by_cases h : r.id = doc_id
  · simp [h]
  · simp [h]

/-! ### Claims about the vector store -/

/-- Claim C2.  The claim says `add_documents` forwards the chunks' computed
embedding vectors to the store's upsert call, so that the computed vector is
the one persisted.  The code does not: `collection.add` is called with only
`ids`, `documents` and `metadatas` (the local `embeddings` list is created and
never used), so the persisted record carries no caller-supplied vector.
Evaluation at a failing input: a single chunk whose computed embedding
`[1, 2]` sits in its metadata is stored with `embedding = none`. -/
theorem C2_embedding_dropped :
    add_documents (fun s => s) []
        [{ content := "hello", meta_source := "s.txt", meta_embedding := some [1, 2] }] 100
      = ([{ id := "s.txt_s.txthello", document := "hello", meta_source := "s.txt",
            meta_embedding := some [1, 2], embedding := none }], 1) ∧
    ((add_documents (fun s => s) []
        [{ content := "hello", meta_source := "s.txt", meta_embedding := some [1, 2] }] 100).1.map
      (fun r => r.embedding)) = [none] := by
  constructor
  · rfl
  · rfl

/-- Claim C6.  Ingestion is idempotent: running `add_documents` a second time
with the same documents (hence the same deterministically derived ids) skips
every chunk — each id already exists — so the second call writes nothing,
returns a written count of `0`, and leaves the collection (and therefore its
record count) exactly unchanged.  Holds for every hash function, prior
collection state and positive batch size. -/
theorem C6_idempotent_ingestion (hash : String → String) (c : Collection)
    (docs : List Document) (bs : Nat) (hbs : 1 ≤ bs) :
    add_documents hash (add_documents hash c docs bs).1 docs bs
      = ((add_documents hash c docs bs).1, 0) := by
  have hcov : ∀ d ∈ docs, hasId (add_documents hash c docs bs).1 (generate_id hash d) = true := by
    intro d hd
    apply hasId_addFold_covers
    rw [toBatches_flatten bs hbs docs]
    exact hd
  unfold add_documents
  apply addFold_stable
  intro b hb d hd
  apply hcov
  rw [← toBatches_flatten bs hbs docs]
  exact List.mem_flatten.mpr ⟨b, hb, hd⟩

/-- Witness for `C6_idempotent_ingestion`: re-ingesting two pet chunks (one
duplicated pair of `(source, content)`) into an initially empty store. -/
theorem C6_witness :
    add_documents (fun s => s)
        (add_documents (fun s => s) []
          [{ content := "猫喜欢睡觉。", meta_source := "pets.txt", meta_embedding := none },
           { content := "狗喜欢玩球。", meta_source := "pets.txt", meta_embedding := none }] 100).1
        [{ content := "猫喜欢睡觉。", meta_source := "pets.txt", meta_embedding := none },
         { content := "狗喜欢玩球。", meta_source := "pets.txt", meta_embedding := none }] 100
      = ((add_documents (fun s => s) []
          [{ content := "猫喜欢睡觉。", meta_source := "pets.txt", meta_embedding := none },
           { content := "狗喜欢玩球。", meta_source := "pets.txt", meta_embedding := none }] 100).1, 0) :=
  C6_idempotent_ingestion (fun s => s) []
    [{ content := "猫喜欢睡觉。", meta_source := "pets.txt", meta_embedding := none },
     { content := "狗喜欢玩球。", meta_source := "pets.txt", meta_embedding := none }] 100
    (by omega)

/-- Claim C7.  No two live records ever share an id: starting from a
collection with pairwise-distinct ids, each store operation —
`add_documents` (whose per-document existence check skips known ids and whose
batch write upserts, so even a batch containing two chunks with equal
`(source, content)` and hence one shared derived id yields a single record),
`update_document`, `delete_documents` and `clear_collection` — again yields
pairwise-distinct ids. -/
theorem C7_id_uniqueness (hash : String → String) (c : Collection) (docs : List Document)
    (bs : Nat) (doc_id : String) (d : Document) (ids : List String)
    (h : (collectionIds c).Nodup) :
    (collectionIds (add_documents hash c docs bs).1).Nodup ∧
    (collectionIds (update_document c doc_id d)).Nodup ∧
    (collectionIds (delete_documents c ids)).Nodup ∧
    (collectionIds clear_collection).Nodup := by
  refine ⟨nodup_addFold hash _ _ h, ?_, ?_, List.nodup_nil⟩
  · rw [collectionIds_update]
    exact h
  · exact List.Nodup.sublist (List.Sublist.map _ (List.filter_sublist c)) h

/-- Witness for `C7_id_uniqueness`: a single `add_documents` call containing
two chunks with equal `(source, content)` — equal derived ids — on an empty
store, together with the other three operations. -/
theorem C7_witness :
    (collectionIds (add_documents (fun s => s) []
        [{ content := "猫喜欢睡觉。", meta_source := "pets.txt", meta_embedding := none },
         { content := "猫喜欢睡觉。", meta_source := "pets.txt", meta_embedding := none }] 100).1).Nodup ∧
    (collectionIds (update_document [] "some_id"
        { content := "x", meta_source := "y", meta_embedding := none })).Nodup ∧
    (collectionIds (delete_documents [] ["some_id"])).Nodup ∧
    (collectionIds clear_collection).Nodup :=
  C7_id_uniqueness (fun s => s) []
    [{ content := "猫喜欢睡觉。", meta_source := "pets.txt", meta_embedding := none },
     { content := "猫喜欢睡觉。", meta_source := "pets.txt", meta_embedding := none }] 100
    "some_id" { content := "x", meta_source := "y", meta_embedding := none } ["some_id"]
    List.nodup_nil

/-! ## Ollama client with retry (rag_engine.py, lines 19-71)

`OllamaClient.generate_embedding` is decorated with
`@retry(exceptions=(requests.RequestException, ConnectionError), tries=3,
delay=1, backoff=2)`.  An attempt's outcome is one of: success, a transient
error (an exception in the decorator's `exceptions` tuple: connection
failures and non-2xx transport errors raised by `raise_for_status`), or a
fatal error (any other exception — in particular the `ValueError` raised when
the JSON response has no usable `embedding` field).  The HTTP service is an
oracle mapping the attempt number to a response. -/

inductive Outcome (α : Type) where
  | ok : α → Outcome α
  | transientErr : String → Outcome α
  | fatalErr : String → Outcome α
deriving DecidableEq

/-- A response of the embedding endpoint for one attempt: either the request
raises a transport-level error (`requests.RequestException` /
`ConnectionError`, including non-2xx via `raise_for_status`), or it yields a
JSON body whose `embedding` field is absent (`none`) or present. -/
inductive EmbResponse where
  | transportError : String → EmbResponse
  | httpJson : Option (List Rat) → EmbResponse
deriving DecidableEq

/-- The body of `generate_embedding` for one attempt: transport errors
re-raise (transient for the decorator); `embedding = data.get("embedding");
if not embedding: raise ValueError(...)` — `None` and the empty list are both
falsy — otherwise return the vector. -/
def embeddingAttempt (resp : EmbResponse) : Outcome (List Rat) :=
  match resp with
  | .transportError e => .transientErr e
  | .httpJson none => .fatalErr "响应中没有嵌入向量"
  | .httpJson (some v) => if v = [] then .fatalErr "响应中没有嵌入向量" else .ok v

/-- The `retry` decorator's loop: run the wrapped call; on a listed
(transient) exception decrement the remaining tries, re-raise when none are
left, otherwise sleep `delay` and multiply `delay` by `backoff`; any other
exception propagates immediately.  Returns the final outcome, the number of
attempts made, and the list of delays slept. -/
def retryExec {α : Type} (f : Nat → Outcome α) : Nat → Nat → Nat → Nat → Outcome α × Nat × List Nat
  | _, 0, _, _ => (.transientErr "", 0, [])
  | attempt, tries + 1, delay, backoff =>
    match f attempt with
    | .ok a => (.ok a, 1, [])
    | .fatalErr e => (.fatalErr e, 1, [])
    | .transientErr e =>
      if tries = 0 then (.transientErr e, 1, [])
      else
        let r := retryExec f (attempt + 1) tries (delay * backoff) backoff
        (r.1, r.2.1 + 1, delay :: r.2.2)

/-- `OllamaClient.generate_embedding` under its decorator:
`tries = 3`, `delay = 1`, `backoff = 2`. -/
def generate_embedding (oracle : Nat → EmbResponse) : Outcome (List Rat) × Nat × List Nat :=
  retryExec (fun k => embeddingAttempt (oracle k)) 0 3 1 2

theorem retryExec_attempts_le {α : Type} (f : Nat → Outcome α) :
    ∀ (tries attempt delay backoff : Nat),
      (retryExec f attempt tries delay backoff).2.1 ≤ tries := by
  intro tries
  induction tries with
  | zero => intro attempt delay backoff; simp [retryExec]
  | succ tries ih =>
    intro attempt delay backoff
    cases hf : f attempt with
    | ok a => simp [retryExec, hf]
    | fatalErr e => simp [retryExec, hf]
    | transientErr e =>
      by_cases h : tries = 0
      · simp [retryExec, hf, h]
      · have := ih (attempt + 1) (delay * backoff) backoff
        simp [retryExec, hf, h]
        omega

/-- Claim C8.  The retry policy of `generate_embedding`: at most 3 attempts
are ever made; a call whose first two attempts fail with a transient
(transport) error and whose third succeeds returns the successful vector,
having slept the exponentially doubling delays `[1, 2]`; and a well-formed
response with a missing embedding field fails immediately — one attempt, no
retry, no sleep. -/
theorem C8_retry_policy (o1 o2 : Nat → EmbResponse) (e1 e2 : String) (v : List Rat)
    (h0 : o1 0 = .transportError e1) (h1 : o1 1 = .transportError e2)
    (h2 : o1 2 = .httpJson (some v)) (hv : v ≠ [])
    (g0 : o2 0 = .httpJson none) :
    generate_embedding o1 = (.ok v, 3, [1, 2]) ∧
    generate_embedding o2 = (.fatalErr "响应中没有嵌入向量", 1, []) ∧
    (∀ o3 : Nat → EmbResponse, (generate_embedding o3).2.1 ≤ 3) := by
  refine ⟨?_, ?_, ?_⟩
  · simp [generate_embedding, retryExec, h0, h1, h2, embeddingAttempt, hv]
  · simp [generate_embedding, retryExec, g0, embeddingAttempt]
  · intro o3
    exact retryExec_attempts_le _ 3 0 1 2

/-- Witness for `C8_retry_policy`: an oracle failing with connection errors on
the first two attempts and answering `[1]` on the third, and an oracle
answering a JSON body without an embedding field. -/
theorem C8_witness :
    generate_embedding (fun k =>
        if k = 0 then .transportError "conn reset"
        else if k = 1 then .transportError "timeout"
        else .httpJson (some [1])) = (.ok [1], 3, [1, 2]) ∧
    generate_embedding (fun _ => .httpJson none) = (.fatalErr "响应中没有嵌入向量", 1, []) ∧
    (∀ o3 : Nat → EmbResponse, (generate_embedding o3).2.1 ≤ 3) :=
  C8_retry_policy
    (fun k =>
      if k = 0 then .transportError "conn reset"
      else if k = 1 then .transportError "timeout"
      else .httpJson (some [1]))
    (fun _ => .httpJson none)
    "conn reset" "timeout" [1] rfl rfl rfl (by decide) rfl

/-! ## Search and query orchestration (rag_engine.py, lines 250-437)

`RAGEngine.search_documents` embeds the query, calls
`vector_store.search_similar` and converts the raw ChromaDB result dictionary
into `(Document, similarity_score)` pairs.  The external calls are modelled as
oracles returning `Except` values: an `Except.error` is a Python exception
propagating out of the call (after the retry decorator is exhausted). -/

/-- The slice of the ChromaDB query-result dictionary that
`search_documents` reads: `results['documents'][0]`,
`results.get('metadatas', [[]])[0]` (each entry reduced to its `source`
field, `""` when absent) and `results.get('distances', [[]])[0]`. -/
structure SearchResults where
  documents : List String
  metadatas : List String
  distances : List Rat
deriving DecidableEq

/-- `similarity_score = 1.0 / (1.0 + distance) if distance else 1.0` —
Python float truthiness: any nonzero distance takes the first branch. -/
def similarity_score (d : Rat) : Rat :=
  if d ≠ 0 then 1 / (1 + d) else 1

/-- `results.get('metadatas', [[]])[0] or [{}] * len(documents)`. -/
def effMetas (res : SearchResults) : List String :=
  if res.metadatas.isEmpty then List.replicate res.documents.length "" else res.metadatas

/-- `results.get('distances', [[]])[0] or [0.0] * len(documents)`. -/
def effDists (res : SearchResults) : List Rat :=
  if res.distances.isEmpty then List.replicate res.documents.length 0 else res.distances

/-- The result-parsing loop of `search_documents`: guard
`if results.get('documents') and results['documents'][0]`, then zip documents
with (defaulted) metadatas and distances and build
`(Document(content, metadata, source), similarity_score)` pairs. -/
def parse_search (res : SearchResults) : List (Document × Rat) :=
  if res.documents.isEmpty then []
  else
    (res.documents.zip ((effMetas res).zip (effDists res))).map
      (fun p =>
        ({ content := p.1, meta_source := p.2.1, meta_embedding := none },
          similarity_score p.2.2))

/-- `RAGEngine.search_documents`: the query-embedding call and the
vector-store search both propagate their exceptions; on success the parsed
pairs are returned. -/
def search_documents (embedR : Except String (List Rat))
    (searchR : List Rat → Except String SearchResults) :
    Except String (List (Document × Rat)) :=
  match embedR with
  | .error e => .error e
  | .ok query_embedding =>
    match searchR query_embedding with
    | .error e => .error e
    | .ok results => .ok (parse_search results)

/-- The dictionary returned by `RAGEngine.query` (processing time is not
modelled and recorded as `0`). -/
structure RagResult where
  question : String
  answer : String
  retrieved_documents : List (Document × Rat)
  processing_time : Rat

/-- The fixed no-information-found answer of `RAGEngine.query`. -/
def no_info_answer : String := "抱歉，知识库中没有找到相关信息。"

/-- The answer string built when `generate_answer` raises:
`f"生成回答时发生错误: {e}"`. -/
def gen_error_answer (e : String) : String := "生成回答时发生错误: " ++ e

/-- Outcome of one `query` call: the returned dictionary or the propagated
exception, plus the number of calls made to the generation service. -/
structure QueryOutcome where
  result : Except String RagResult
  generation_calls : Nat

/-- `RAGEngine.query`: search (exceptions propagate — there is no
`try/except` around steps 1–2), filter by `score >= min_similarity`, return
the fixed answer with no generation call when nothing is left, otherwise call
generation once, converting a generation failure into an error-describing
answer string. -/
def rag_query (embedR : Except String (List Rat))
    (searchR : List Rat → Except String SearchResults)
    (genR : Except String String)
    (question : String) (min_similarity : Rat) : QueryOutcome :=
  match search_documents embedR searchR with
  | .error e => { result := .error e, generation_calls := 0 }
  | .ok search_results =>
    let filtered := search_results.filter (fun p => decide (min_similarity ≤ p.2))
    if filtered.isEmpty then
      { result := .ok { question := question,
                        answer := no_info_answer,
                        retrieved_documents := [],
                        processing_time := 0 },
        generation_calls := 0 }
    else
      { result := .ok { question := question,
                        answer := (match genR with
                          | .ok a => a
                          | .error e => gen_error_answer e),
                        retrieved_documents := filtered,
                        processing_time := 0 },
        generation_calls := 1 }

/-! ### Query lemmas -/

theorem search_documents_ok (searchR : List Rat → Except String SearchResults)
    (qe : List Rat) (sr : SearchResults) (hs : searchR qe = .ok sr) :
    search_documents (.ok qe) searchR = .ok (parse_search sr) := by
  show (match searchR qe with
    | Except.error e => Except.error e
    | Except.ok results => Except.ok (parse_search results)) = Except.ok (parse_search sr)
  rw [hs]

theorem rag_query_ok (searchR : List Rat → Except String SearchResults)
    (genR : Except String String) (q : String) (ms : Rat)
    (qe : List Rat) (sr : SearchResults) (hs : searchR qe = .ok sr) :
    rag_query (.ok qe) searchR genR q ms =
      if ((parse_search sr).filter (fun p => decide (ms ≤ p.2))).isEmpty then
        { result := .ok { question := q,
                          answer := no_info_answer,
                          retrieved_documents := [],
                          processing_time := 0 },
          generation_calls := 0 }
      else
        { result := .ok { question := q,
                          answer := (match genR with
                            | .ok a => a
                            | .error e => gen_error_answer e),
                          retrieved_documents :=
                            (parse_search sr).filter (fun p => decide (ms ≤ p.2)),
                          processing_time := 0 },
          generation_calls := 1 } := by
  unfold rag_query
  rw [search_documents_ok searchR qe sr hs]

theorem similarity_score_unit (d : Rat) (hd : 0 ≤ d) :
    0 ≤ similarity_score d ∧ similarity_score d ≤ 1 := by
  unfold similarity_score
  by_cases h : d ≠ 0
  · rw [if_pos h]
    have h1 : (0 : Rat) < 1 + d := by linarith
    constructor
    · positivity
    · rw [div_le_one h1]; linarith
  · rw [if_neg h]
    norm_num

theorem parse_search_scores (res : SearchResults) :
    ∀ p ∈ parse_search res,
      ∃ d : Rat, (d ∈ res.distances ∨ d = 0) ∧ p.2 = similarity_score d := by
  intro p hp
  unfold parse_search at hp
  by_cases hdoc : res.documents.isEmpty
  · simp [hdoc] at hp
  · rw [if_neg hdoc] at hp
    obtain ⟨⟨qd, qm, qdist⟩, hq, rfl⟩ := List.mem_map.mp hp
    refine ⟨qdist, ?_, rfl⟩
    have h2 : (qm, qdist) ∈ (effMetas res).zip (effDists res) := (List.of_mem_zip hq).2
    have h3 : qdist ∈ effDists res := (List.of_mem_zip h2).2
    unfold effDists at h3
    by_cases hdist : res.distances.isEmpty
    · rw [if_pos hdist] at h3
      exact Or.inr (List.eq_of_mem_replicate h3)
    · rw [if_neg hdist] at h3
      exact Or.inl h3

/-! ### Claims about search and query -/

/-- Claim C9.  Every similarity score emitted by the result-parsing of
`search_documents` is `similarity_score d` for `d` either a reported distance
or the `0.0` default used when no distances are available; the score is
`1 / (1 + d)` for a nonzero distance and `1.0` for the no-distance /
zero-distance case; and for every non-negative distance the score lies in
`[0, 1]`. -/
theorem C9_similarity_score (res : SearchResults) :
    (∀ p ∈ parse_search res,
      ∃ d : Rat, (d ∈ res.distances ∨ d = 0) ∧ p.2 = similarity_score d) ∧
    (∀ d : Rat, d ≠ 0 → similarity_score d = 1 / (1 + d)) ∧
    similarity_score 0 = 1 ∧
    (∀ d : Rat, 0 ≤ d → 0 ≤ similarity_score d ∧ similarity_score d ≤ 1) := by
  refine ⟨parse_search_scores res, ?_, ?_, similarity_score_unit⟩
  · intro d hd
    simp [similarity_score, hd]
  · simp [similarity_score]

/-- Witness for `C9_similarity_score`: a one-result search with distance `1`,
and the distance `3` for the range conjunct. -/
theorem C9_witness :
    (∃ d : Rat,
      (d ∈ (SearchResults.mk ["doc"] [] [1]).distances ∨ d = 0) ∧
      (({ content := "doc", meta_source := "", meta_embedding := none },
          similarity_score 1) : Document × Rat).2 = similarity_score d) ∧
    (0 ≤ similarity_score 3 ∧ similarity_score 3 ≤ 1) :=
  ⟨(C9_similarity_score ⟨["doc"], [], [1]⟩).1
      ({ content := "doc", meta_source := "", meta_embedding := none }, similarity_score 1)
      (by
        have hparse : parse_search ⟨["doc"], [], [1]⟩
            = [({ content := "doc", meta_source := "", meta_embedding := none },
                similarity_score 1)] := rfl
        rw [hparse]
        exact List.mem_singleton.mpr rfl),
    (C9_similarity_score ⟨["doc"], [], [1]⟩).2.2.2 3 (by norm_num)⟩

/-- Claim C10.  When no search result reaches `min_similarity` — in
particular when the vector store is empty and the search returns no documents
— `query` returns the fixed no-information answer with
`retrieved_documents = []` and makes zero calls to the generation service;
and every entry of `retrieved_documents` in any successful result has
`similarity_score ≥ min_similarity`. -/
theorem C10_threshold_filtering (embedR : Except String (List Rat))
    (searchR : List Rat → Except String SearchResults)
    (genR : Except String String) (q : String) (ms : Rat)
    (qe : List Rat) (sr : SearchResults)
    (he : embedR = .ok qe) (hs : searchR qe = .ok sr) :
    ((∀ p ∈ parse_search sr, p.2 < ms) →
      rag_query embedR searchR genR q ms =
        { result := .ok { question := q,
                          answer := no_info_answer,
                          retrieved_documents := [],
                          processing_time := 0 },
          generation_calls := 0 }) ∧
    (∀ r, (rag_query embedR searchR genR q ms).result = .ok r →
      ∀ p ∈ r.retrieved_documents, ms ≤ p.2) := by
  subst he
  rw [rag_query_ok searchR genR q ms qe sr hs]
  constructor
  · intro hall
    have hfil : (parse_search sr).filter (fun p => decide (ms ≤ p.2)) = [] :=
      List.filter_eq_nil_iff.mpr (fun p hp => by simpa using not_le.mpr (hall p hp))
    rw [hfil]
    rfl
  · intro r hr p hp
    by_cases hfil : ((parse_search sr).filter (fun p => decide (ms ≤ p.2))).isEmpty
    · rw [if_pos hfil] at hr
      have h2 := Except.ok.inj hr
      rw [← h2] at hp
      simp at hp
    · rw [if_neg hfil] at hr
      have h2 := Except.ok.inj hr
      rw [← h2] at hp
      exact of_decide_eq_true (List.mem_filter.mp hp).2

/-- Witness for `C10_threshold_filtering`: querying an empty vector store
(search returns no documents) with `min_similarity = 0.7` and a generation
oracle that would fail if it were called. -/
theorem C10_witness :
    rag_query (Except.ok []) (fun _ => Except.ok ⟨[], [], []⟩) (Except.error "g") "q" (7 / 10)
      = { result := Except.ok { question := "q",
                                answer := no_info_answer,
                                retrieved_documents := [],
                                processing_time := 0 },
          generation_calls := 0 } :=
  (C10_threshold_filtering (Except.ok []) (fun _ => Except.ok ⟨[], [], []⟩) (Except.error "g")
      "q" (7 / 10) [] ⟨[], [], []⟩ rfl rfl).1
    (by intro p hp; simp [parse_search] at hp)

/-- Claim C1, counterexample.  The claim says `query` never raises, even when
the query-embedding call or the vector-store search fails after retries.  But
`query` wraps only the generation step in `try/except`: an exception from the
embedding call inside `search_documents` propagates straight out of `query`.
At a concrete input whose embedding oracle raises, the call yields the
exception, not a well-formed result object. -/
theorem C1_counterexample :
    (rag_query (Except.error "embedding request failed")
        (fun _ => Except.ok ⟨[], [], []⟩) (Except.ok "answer") "q" 0).result
      = Except.error "embedding request failed" := rfl

/-- Claim C1, amended.  Provided the query-embedding call and the
vector-store search succeed, `query` always returns a well-formed result
object `{question, answer, retrieved_documents, processing_time}` and never
raises; in particular a generation failure (after retries are exhausted) is
converted into an answer string describing the error.  A failure of the
embedding call or of the search, however, propagates as an exception (see the
counterexample). -/
theorem C1_amended_theorem (embedR : Except String (List Rat))
    (searchR : List Rat → Except String SearchResults)
    (genR : Except String String) (q : String) (ms : Rat)
    (qe : List Rat) (sr : SearchResults)
    (he : embedR = .ok qe) (hs : searchR qe = .ok sr) :
    (∃ r : RagResult, (rag_query embedR searchR genR q ms).result = .ok r ∧ r.question = q) ∧
    (∀ e, genR = .error e →
      ((parse_search sr).filter (fun p => decide (ms ≤ p.2))).isEmpty = false →
      rag_query embedR searchR genR q ms =
        { result := .ok { question := q,
                          answer := gen_error_answer e,
                          retrieved_documents :=
                            (parse_search sr).filter (fun p => decide (ms ≤ p.2)),
                          processing_time := 0 },
          generation_calls := 1 }) := by
  subst he
  rw [rag_query_ok searchR genR q ms qe sr hs]
  constructor
  · by_cases hfil : ((parse_search sr).filter (fun p => decide (ms ≤ p.2))).isEmpty
    · rw [if_pos hfil]
      exact ⟨_, rfl, rfl⟩
    · rw [if_neg hfil]
      exact ⟨_, rfl, rfl⟩
  · intro e hgen hfil
    rw [if_neg (by simp [hfil]), hgen]

/-- Witness for `C1_amended_theorem`: a search that retrieves one document at
distance `1` with threshold `0`, and a generation call that fails with
`"boom"`; the query still returns a well-formed result whose answer describes
the error. -/
theorem C1_witness :
    (∃ r : RagResult,
      (rag_query (Except.ok []) (fun _ => Except.ok ⟨["doc"], [], [1]⟩)
          (Except.error "boom") "q" 0).result = Except.ok r ∧ r.question = "q") ∧
    rag_query (Except.ok []) (fun _ => Except.ok ⟨["doc"], [], [1]⟩)
        (Except.error "boom") "q" 0
      = { result := Except.ok { question := "q",
                                answer := gen_error_answer "boom",
                                retrieved_documents :=
                                  (parse_search ⟨["doc"], [], [1]⟩).filter
                                    (fun p => decide ((0 : Rat) ≤ p.2)),
                                processing_time := 0 },
          generation_calls := 1 } := by
  have h := C1_amended_theorem (Except.ok []) (fun _ => Except.ok ⟨["doc"], [], [1]⟩)
    (Except.error "boom") "q" 0 [] ⟨["doc"], [], [1]⟩ rfl rfl
  refine ⟨h.1, h.2 "boom" rfl ?_⟩
  have hparse : parse_search ⟨["doc"], [], [1]⟩
      = [({ content := "doc", meta_source := "", meta_embedding := none },
          similarity_score 1)] := rfl
  rw [hparse]
  have hnn : (0 : Rat) ≤ similarity_score 1 := (similarity_score_unit 1 (by norm_num)).1
  simp [List.filter_cons, decide_eq_true hnn]

end RagSpec
